import Mathlib

/-!
Verification of the GNC (Graduated Non-Convexity) meta-optimizer layer of
this repository: the configuration type `GncParams` (from
`gtsam/nonlinear/GncParams.h`), and the optimizer primitives
(`initializeMu`, `updateMu`, `checkMuConvergence`, `calculateWeights`,
`makeWeightedGraph`, robust-graph unwrapping, and the outer loop) exercised
by `tests/testGncOptimizer.cpp`.

Doubles are modelled as exact rationals (`ℚ`); the properties at stake are
exact algebraic identities of the formulas, checked against the concrete
values the unit tests expect.
-/

namespace Gnc

/-- Choice of robust loss function for GNC, from `GncParams.h` (`GncLossType`). -/
inductive GncLossType
  | GM
  | TLS
deriving DecidableEq

/-- Verbosity levels, from `GncParams.h` (`Verbosity`). -/
inductive Verbosity
  | SILENT
  | SUMMARY
  | VALUES
deriving DecidableEq

/-- The GNC configuration record, from `GncParams.h`.  The base optimizer
parameters are any type `B`; all `double` fields are rationals. -/
structure GncParams (B : Type) where
  baseOptimizerParams : B
  lossType : GncLossType
  maxIterations : Nat
  barcSq : ℚ
  muStep : ℚ
  relativeCostTol : ℚ
  weightsTol : ℚ
  verbosity : Verbosity
  knownInliers : List Nat

/-- Field defaults of `GncParams` in `GncParams.h`: `lossType = TLS`,
`maxIterations = 100`, `barcSq = 1.0`, `muStep = 1.4`,
`relativeCostTol = 1e-5`, `weightsTol = 1e-4`, `verbosity = SILENT`,
`knownInliers = {}`. -/
def GncParams.mkDefault (base : B) : GncParams B :=
  { baseOptimizerParams := base
    lossType := GncLossType.TLS
    maxIterations := 100
    barcSq := 1
    muStep := 7 / 5
    relativeCostTol := 1 / 100000
    weightsTol := 1 / 10000
    verbosity := Verbosity.SILENT
    knownInliers := [] }

/-- `GncParams::setLossType`. -/
def GncParams.setLossType (p : GncParams B) (t : GncLossType) : GncParams B :=
  { p with lossType := t }

/-- `GncParams::setInlierCostThreshold` (`GncParams.h` line 93): stores the
given value in `barcSq` unconditionally, with no validation. -/
def GncParams.setInlierCostThreshold (p : GncParams B) (inth : ℚ) : GncParams B :=
  { p with barcSq := inth }

/-- `GncParams::setMuStep` (`GncParams.h` line 97): stores the given value
in `muStep` unconditionally, with no validation. -/
def GncParams.setMuStep (p : GncParams B) (step : ℚ) : GncParams B :=
  { p with muStep := step }

/-- `GncParams::setKnownInliers`: appends the given slots. -/
def GncParams.setKnownInliers (p : GncParams B) (knownIn : List Nat) : GncParams B :=
  { p with knownInliers := p.knownInliers ++ knownIn }

/-- `GncParams::equals` from `GncParams.h` lines 122-129: compares the base
parameters, `lossType`, `maxIterations`, `barcSq` and `muStep` (each within
`tol`), `verbosity` and `knownInliers`.  Note that `relativeCostTol` and
`weightsTol` are not compared. -/
def GncParams.equals (baseEq : B → B → Bool) (p other : GncParams B) (tol : ℚ) : Bool :=
  baseEq p.baseOptimizerParams other.baseOptimizerParams
    && decide (p.lossType = other.lossType)
    && decide (p.maxIterations = other.maxIterations)
    && decide (|p.barcSq - other.barcSq| ≤ tol)
    && decide (|p.muStep - other.muStep| ≤ tol)
    && decide (p.verbosity = other.verbosity)
    && decide (p.knownInliers = other.knownInliers)

/-- Modelled from the spec: the per-factor Truncated Least Squares weight of
`GncOptimizer::calculateWeights` (`GncOptimizer.h` is not among the provided
sources; only its unit tests are).  Spec 4.1: inlier (weight 1) if
`error <= mu·barcSq`, else `w = (mu·barcSq / (error + mu·barcSq))^2`. -/
def weightTLS (barcSq mu error : ℚ) : ℚ :=
  if error ≤ mu * barcSq then 1
  else (mu * barcSq / (error + mu * barcSq)) ^ 2

/-- Modelled from the spec: the per-factor Geman-McClure weight of
`GncOptimizer::calculateWeights` (`GncOptimizer.h` is not among the provided
sources).  Spec 4.1 pins only its qualitative shape — monotone decreasing in
the error and in decreasing `mu`, weight exactly 1 at zero error — which the
standard GM weight `(mu·barcSq / (error + mu·barcSq))^2` satisfies. -/
def weightGM (barcSq mu error : ℚ) : ℚ :=
  (mu * barcSq / (error + mu * barcSq)) ^ 2

/-- Per-factor weight for the selected loss family. -/
def lossWeight (t : GncLossType) (barcSq mu error : ℚ) : ℚ :=
  match t with
  | GncLossType.GM => weightGM barcSq mu error
  | GncLossType.TLS => weightTLS barcSq mu error

/-- Modelled from the spec: the slot-indexed weight recursion inside
`GncOptimizer::calculateWeights` — slots registered as known inliers bypass
the weight function and get weight 1.0; every other slot gets the loss
weight of its residual error (spec 4.1). -/
def calculateWeightsAux (p : GncParams B) (mu : ℚ) : Nat → List ℚ → List ℚ
  | _, [] => []
  | i, e :: es =>
    (if i ∈ p.knownInliers then 1 else lossWeight p.lossType p.barcSq mu e)
      :: calculateWeightsAux p mu (i + 1) es

/-- Modelled from the spec: `GncOptimizer::calculateWeights(estimate, mu)`
(`GncOptimizer.h` is not among the provided sources), acting on the list of
per-factor residual errors at the estimate, in slot order. -/
def calculateWeights (p : GncParams B) (errors : List ℚ) (mu : ℚ) : List ℚ :=
  calculateWeightsAux p mu 0 errors

/-- Largest per-factor error of a list of residual errors (`rmax²`). -/
def rmaxSq (errors : List ℚ) : ℚ :=
  errors.foldr max 0

/-- Modelled from the spec: the `mu0` formula of `GncOptimizer::initializeMu`
(`GncOptimizer.h` is not among the provided sources).  Spec 4.2:
GM `mu0 = 2·rmax² / barcSq`; TLS `mu0 = barcSq / (2·rmax² − barcSq)`. -/
def initializeMuFormula (t : GncLossType) (barcSq rSq : ℚ) : ℚ :=
  match t with
  | GncLossType.GM => 2 * rSq / barcSq
  | GncLossType.TLS => barcSq / (2 * rSq - barcSq)

/-- Modelled from the spec: `GncOptimizer::initializeMu()` computes `mu0`
from the largest per-factor error at the initial estimate (spec 4.2). -/
def initializeMu (p : GncParams B) (errors : List ℚ) : ℚ :=
  initializeMuFormula p.lossType p.barcSq (rmaxSq errors)

/-- Modelled from the spec: `GncOptimizer::updateMu(mu)` (`GncOptimizer.h`
is not among the provided sources).  Spec 4.2: GM `mu ← mu / muStep` floored
at 1.0; TLS `mu ← mu · muStep` with no ceiling. -/
def updateMu (t : GncLossType) (muStep mu : ℚ) : ℚ :=
  match t with
  | GncLossType.GM => max 1 (mu / muStep)
  | GncLossType.TLS => mu * muStep

/-- Modelled from the spec: `GncOptimizer::checkMuConvergence(mu, previousMu)`
(`GncOptimizer.h` is not among the provided sources).  Spec 4.2: GM converged
exactly when `mu == 1.0`, independent of the previous value; TLS converged
when `|mu − previousMu| ≤ relativeCostTol`. -/
def checkMuConvergence (t : GncLossType) (relativeCostTol mu previousMu : ℚ) : Bool :=
  match t with
  | GncLossType.GM => decide (mu = 1)
  | GncLossType.TLS => decide (|mu - previousMu| ≤ relativeCostTol)

/-- A factor's uncertainty model: either a plain Gaussian model, recorded by
its information (inverse variance, `1/sigma²`), or a robust loss wrapped
around a plain Gaussian model (spec 3, glossary). -/
inductive NoiseModel
  | gaussian (info : ℚ)
  | robust (info : ℚ)
deriving DecidableEq

/-- One measurement constraint: the unknowns it references, an identifier
standing for its residual function and measurement, and its uncertainty
model (spec 3, FactorGraph). -/
structure NonlinearFactor where
  keys : List Nat
  residualId : Nat
  noise : NoiseModel
deriving DecidableEq

/-- A factor graph is the ordered sequence of its factors; a factor's slot
is its position (spec 3). -/
abbrev NonlinearFactorGraph := List NonlinearFactor

/-- Modelled from the spec: the per-factor robust-unwrap step done by the
`GncOptimizer` constructor (`GncOptimizer.h` is not among the provided
sources).  Spec 4.4: a factor wrapped in a robust loss is replaced by its
inner plain-noise factor, preserving the residual and the base uncertainty
model; a plain factor passes through unchanged. -/
def unwrapFactor (f : NonlinearFactor) : NonlinearFactor :=
  match f.noise with
  | NoiseModel.robust info => { f with noise := NoiseModel.gaussian info }
  | NoiseModel.gaussian _ => f

/-- Modelled from the spec: the robust-graph unwrapping transform applied to
the whole input graph at construction (spec 4.4). -/
def unwrapRobust (g : NonlinearFactorGraph) : NonlinearFactorGraph :=
  g.map unwrapFactor

/-- A graph has no robust-wrapped factors. -/
def allPlain (g : NonlinearFactorGraph) : Prop :=
  ∀ f ∈ g, ∃ info, f.noise = NoiseModel.gaussian info

/-- Wrap a plain Gaussian factor in a robust loss around its own base model
(the inverse of unwrapping, as `sharedRobustFactorGraphWithOutliers` does to
`sharedNonRobustFactorGraphWithOutliers` in the tests). -/
def wrapFactor (f : NonlinearFactor) : NonlinearFactor :=
  match f.noise with
  | NoiseModel.gaussian info => { f with noise := NoiseModel.robust info }
  | NoiseModel.robust info => { f with noise := NoiseModel.robust info }

/-- Robustify every factor of a graph. -/
def wrapRobust (g : NonlinearFactorGraph) : NonlinearFactorGraph :=
  g.map wrapFactor

/-- Modelled from the spec: rescaling of one factor's uncertainty model by
its weight inside `GncOptimizer::makeWeightedGraph` (spec 4.3): the
effective information is multiplied by the weight (equivalently the noise
standard deviation is divided by `sqrt(weight)`); a robust-wrapped model is
rejected at this stage. -/
def reweightNoise (w : ℚ) : NoiseModel → Option NoiseModel
  | NoiseModel.gaussian info => some (NoiseModel.gaussian (w * info))
  | NoiseModel.robust _ => none

/-- Modelled from the spec: `GncOptimizer::makeWeightedGraph(weights)`
(`GncOptimizer.h` is not among the provided sources).  Spec 4.3: for every
slot `i`, a new factor identical in residual and unknowns whose information
is multiplied by `weights[i]`; slot order and graph size are preserved. -/
def makeWeightedGraph : NonlinearFactorGraph → List ℚ → Option NonlinearFactorGraph
  | [], _ => some []
  | _ :: _, [] => none
  | f :: fs, w :: ws => do
    let n ← reweightNoise w f.noise
    let rest ← makeWeightedGraph fs ws
    pure ({ f with noise := n } :: rest)

/-- Modelled from the spec: the state held by a `GncOptimizer` instance —
the (post-unwrap) factor graph, the current estimate, and the configuration
(spec 2, GNC Optimizer).  The estimate type `V` is abstract. -/
structure GncOptimizer (B V : Type) where
  factors : NonlinearFactorGraph
  state : V
  params : GncParams B

/-- Modelled from the spec: the `GncOptimizer` constructor (`GncOptimizer.h`
is not among the provided sources).  Spec 4.4: at construction the input
graph is inspected and any robust-wrapped factor is replaced by its inner
plain-noise factor; the result is stored as the internal graph. -/
def mkGncOptimizer (g : NonlinearFactorGraph) (initial : V) (p : GncParams B) :
    GncOptimizer B V :=
  { factors := unwrapRobust g, state := initial, params := p }

/-- Modelled from the spec: the weight-saturation check of the main loop
(spec 4.5d): every weight is within `weightsTol` of either 0 or 1. -/
def checkWeightsConvergence (weightsTol : ℚ) (weights : List ℚ) : Bool :=
  weights.all fun w => decide (|w| ≤ weightsTol) || decide (|w - 1| ≤ weightsTol)

/-- Process state of one GNC run: current estimate, control parameter and
weight vector (spec 3). -/
structure GncRunState (V : Type) where
  estimate : V
  mu : ℚ
  weights : List ℚ

/-- Modelled from the spec: one-or-more iterations of the main loop of
`GncOptimizer::optimize()` (spec 4.5, step 2), with the remaining iteration
budget as fuel.  `errs` gives the per-factor residual errors of the internal
graph at an estimate, in slot order; `baseOpt` abstracts building the
weighted graph and running the base optimizer on it to local convergence. -/
def gncIterate (p : GncParams B) (errs : V → List ℚ) (baseOpt : List ℚ → V → V) :
    Nat → GncRunState V → GncRunState V
  | 0, s => s
  | n + 1, s =>
    let est := baseOpt s.weights s.estimate
    let w := calculateWeights p (errs est) s.mu
    if checkWeightsConvergence p.weightsTol w then
      { estimate := est, mu := s.mu, weights := w }
    else
      let mu := updateMu p.lossType p.muStep s.mu
      if checkMuConvergence p.lossType p.relativeCostTol mu s.mu then
        { estimate := est, mu := mu, weights := w }
      else
        gncIterate p errs baseOpt n { estimate := est, mu := mu, weights := w }

/-- Modelled from the spec: `GncOptimizer::optimize()` (spec 4.5): weights
start at all ones, `mu` starts from `initializeMu` at the initial estimate,
then the loop runs for at most `maxIterations` iterations; the final
estimate and weight vector are returned. -/
def gncOptimize (p : GncParams B) (errs : V → List ℚ) (baseOpt : List ℚ → V → V)
    (initial : V) : GncRunState V :=
  gncIterate p errs baseOpt p.maxIterations
    { estimate := initial
      mu := initializeMu p (errs initial)
      weights := List.replicate (errs initial).length 1 }

/-- Modelled from the spec: fail-fast validation of the configuration at the
first schedule computation (spec 7): non-positive `barcSq` or `muStep ≤ 1`
is a programmer error surfaced before the run proceeds. -/
def initializeMuChecked (p : GncParams B) (errors : List ℚ) : Option ℚ :=
  if p.barcSq ≤ 0 ∨ p.muStep ≤ 1 then none
  else some (initializeMu p errors)

/-- Extract the base information of any uncertainty model. -/
def infoOf : NoiseModel → ℚ
  | NoiseModel.gaussian info => info
  | NoiseModel.robust info => info

/-- Expected result of reweighting a plain factor by a weight: information
multiplied by the weight, keys and residual unchanged. -/
def reweightPlainExpected (f : NonlinearFactor) (w : ℚ) : NonlinearFactor :=
  { f with noise := NoiseModel.gaussian (w * infoOf f.noise) }

/-- A weight vector is pinned on the known-inlier slots: every in-range
known-inlier slot holds weight exactly 1. -/
def pinnedWeights (knownInliers : List Nat) (w : List ℚ) : Bool :=
  knownInliers.all fun i => decide (w.length ≤ i) || decide (w.getD i 0 = 1)

theorem calculateWeightsAux_length (p : GncParams B) (mu : ℚ) (k : Nat) (es : List ℚ) :
    (calculateWeightsAux p mu k es).length = es.length := by
  induction es generalizing k with
  | nil => rfl
  | cons e es ih => simp [calculateWeightsAux, ih]

theorem calculateWeightsAux_getD_known (p : GncParams B) (mu : ℚ) (es : List ℚ)
    (k j : Nat) (hj : j < es.length) (hmem : k + j ∈ p.knownInliers) :
    (calculateWeightsAux p mu k es).getD j 0 = 1 := by
  induction es generalizing k j with
  | nil => simp at hj
  | cons e es ih =>
    cases j with
    | zero =>
      have hk : k ∈ p.knownInliers := by simpa using hmem
      simp [calculateWeightsAux, hk]
    | succ j =>
      have : (k + 1) + j ∈ p.knownInliers := by
        have : k + (j + 1) = (k + 1) + j := by omega
        rwa [this] at hmem
      simpa [calculateWeightsAux] using ih (k + 1) j (by simpa using hj) this

theorem pinnedWeights_calculateWeights (p : GncParams B) (es : List ℚ) (mu : ℚ) :
    pinnedWeights p.knownInliers (calculateWeights p es mu) = true := by
  rw [pinnedWeights, List.all_eq_true]
  intro i hi
  rcases le_or_lt es.length i with hle | hlt
  · simp [calculateWeights, calculateWeightsAux_length, hle]
  · have h1 := calculateWeightsAux_getD_known p mu es 0 i hlt (by simpa using hi)
    simp only [Bool.or_eq_true, decide_eq_true_eq]
    exact Or.inr h1

theorem pinnedWeights_replicate (kn : List Nat) (n : Nat) :
    pinnedWeights kn (List.replicate n (1 : ℚ)) = true := by
  rw [pinnedWeights, List.all_eq_true]
  intro i hi
  rcases le_or_lt n i with hle | hlt
  · simp [hle]
  · simp [List.getD_eq_getElem?_getD, List.getElem?_replicate, hlt]

theorem unwrapFactor_of_plain (f : NonlinearFactor) (info : ℚ)
    (h : f.noise = NoiseModel.gaussian info) : unwrapFactor f = f := by
  simp [unwrapFactor, h]

theorem unwrapRobust_of_plain (g : NonlinearFactorGraph) (hp : allPlain g) :
    unwrapRobust g = g := by
  induction g with
  | nil => rfl
  | cons f fs ih =>
    obtain ⟨info, hinfo⟩ := hp f (List.mem_cons_self f fs)
    have hp' : allPlain fs := fun x hx => hp x (List.mem_cons_of_mem _ hx)
    simp [unwrapRobust] at ih ⊢
    exact ⟨unwrapFactor_of_plain f info hinfo, ih hp'⟩

theorem unwrapFactor_wrapFactor_of_plain (f : NonlinearFactor) (info : ℚ)
    (h : f.noise = NoiseModel.gaussian info) : unwrapFactor (wrapFactor f) = f := by
  cases f with
  | mk keys rid noise =>
    simp at h
    simp [wrapFactor, unwrapFactor, h]

theorem unwrapFactor_idem (f : NonlinearFactor) :
    unwrapFactor (unwrapFactor f) = unwrapFactor f := by
  cases f with
  | mk keys rid noise => cases noise <;> rfl

theorem makeWeightedGraph_plain (g : NonlinearFactorGraph) (ws : List ℚ)
    (hp : allPlain g) (hl : g.length = ws.length) :
    makeWeightedGraph g ws = some (List.zipWith reweightPlainExpected g ws) := by
  induction g generalizing ws with
  | nil => simp [makeWeightedGraph]
  | cons f fs ih =>
    cases ws with
    | nil => simp at hl
    | cons w ws =>
      obtain ⟨info, hinfo⟩ := hp f (List.mem_cons_self f fs)
      have hp' : allPlain fs := fun x hx => hp x (List.mem_cons_of_mem _ hx)
      have hl' : fs.length = ws.length := by simpa using hl
      simp [makeWeightedGraph, reweightNoise, hinfo, ih ws hp' hl',
        reweightPlainExpected, infoOf]

/-- Claim C1: the Truncated Least Squares weight is 1 when
`error ≤ mu·barcSq` and `(mu·barcSq / (error + mu·barcSq))^2` otherwise;
consequently `calculateWeights` on the test graph's errors `[0,0,0,50]`
yields weight `(1/51)^2` at the outlier slot for `barcSq=1, mu=1`, and
`(10/60)^2` for `barcSq=5, mu=2`. -/
theorem tls_weight_spec :
    (∀ barcSq mu e : ℚ, e ≤ mu * barcSq → weightTLS barcSq mu e = 1)
    ∧ (∀ barcSq mu e : ℚ, ¬ e ≤ mu * barcSq →
        weightTLS barcSq mu e = (mu * barcSq / (e + mu * barcSq)) ^ 2)
    ∧ (∀ (B : Type) (base : B),
        calculateWeights (GncParams.mkDefault base) [0, 0, 0, 50] 1
          = [1, 1, 1, (1 / 51) ^ 2])
    ∧ (∀ (B : Type) (base : B),
        calculateWeights ((GncParams.mkDefault base).setInlierCostThreshold 5) [0, 0, 0, 50] 2
          = [1, 1, 1, (10 / 60) ^ 2]) := by
  refine ⟨fun barcSq mu e h => by simp [weightTLS, h],
          fun barcSq mu e h => by simp [weightTLS, h], ?_, ?_⟩
  · intro B base
    simp [calculateWeights, calculateWeightsAux, GncParams.mkDefault, lossWeight, weightTLS]
    norm_num
  · intro B base
    simp [calculateWeights, calculateWeightsAux, GncParams.mkDefault,
      GncParams.setInlierCostThreshold, lossWeight, weightTLS]
    norm_num

/-- Concrete instantiation of `tls_weight_spec` at the test's inputs. -/
theorem tls_weight_spec_witness :
    ((0 : ℚ) ≤ 1 * 1 ∧ weightTLS 1 1 0 = 1)
    ∧ (¬ (50 : ℚ) ≤ 1 * 1 ∧ weightTLS 1 1 50 = (1 * 1 / (50 + 1 * 1)) ^ 2) :=
  ⟨⟨by norm_num, tls_weight_spec.1 1 1 0 (by norm_num)⟩,
   ⟨by norm_num, tls_weight_spec.2.1 1 1 50 (by norm_num)⟩⟩

/-- Claim C2: `initializeMu` computes `mu0` from the largest per-factor
error `rmax²` at the initial estimate: GM `mu0 = 2·rmax²/barcSq`, TLS
`mu0 = barcSq/(2·rmax² − barcSq)`; for `rmax² = 198.999` and `barcSq = 1`
these equal `2·198.999` and `1/(2·198.999 − 1)`. -/
theorem initializeMu_spec :
    (∀ (B : Type) (p : GncParams B) (errors : List ℚ),
        p.lossType = GncLossType.GM →
        initializeMu p errors = 2 * rmaxSq errors / p.barcSq)
    ∧ (∀ (B : Type) (p : GncParams B) (errors : List ℚ),
        p.lossType = GncLossType.TLS →
        initializeMu p errors = p.barcSq / (2 * rmaxSq errors - p.barcSq))
    ∧ (∀ (B : Type) (base : B),
        initializeMu ((GncParams.mkDefault base).setLossType GncLossType.GM)
          [198999 / 1000] = 2 * (198999 / 1000))
    ∧ (∀ (B : Type) (base : B),
        initializeMu (GncParams.mkDefault base) [198999 / 1000]
          = 1 / (2 * (198999 / 1000) - 1)) := by
  refine ⟨?_, ?_, ?_, ?_⟩
  · intro B p errors h
    simp [initializeMu, initializeMuFormula, h]
  · intro B p errors h
    simp [initializeMu, initializeMuFormula, h]
  · intro B base
    simp [initializeMu, initializeMuFormula, GncParams.mkDefault, GncParams.setLossType,
      rmaxSq]
    norm_num
  · intro B base
    simp [initializeMu, initializeMuFormula, GncParams.mkDefault, rmaxSq]
    norm_num

/-- Concrete instantiation of `initializeMu_spec` at the test's inputs. -/
theorem initializeMu_spec_witness :
    ((GncParams.mkDefault ()).setLossType GncLossType.GM).lossType = GncLossType.GM
    ∧ initializeMu ((GncParams.mkDefault ()).setLossType GncLossType.GM) [198999 / 1000]
        = 2 * rmaxSq [198999 / 1000] / ((GncParams.mkDefault ()).setLossType GncLossType.GM).barcSq :=
  ⟨rfl, initializeMu_spec.1 Unit ((GncParams.mkDefault ()).setLossType GncLossType.GM)
    [198999 / 1000] rfl⟩

/-- Claim C3: `updateMu` divides by `muStep` for GM, floored at exactly 1
whenever the raw quotient falls below 1 (so updates at the floor are
no-ops), and multiplies by `muStep` for TLS with no ceiling; concretely,
with `muStep = 1.4`, GM maps 5 to `5/1.4` and 1.2 to 1, TLS maps 5 to
`5·1.4`. -/
theorem updateMu_spec :
    (∀ muStep mu : ℚ, 1 ≤ mu / muStep →
        updateMu GncLossType.GM muStep mu = mu / muStep)
    ∧ (∀ muStep mu : ℚ, mu / muStep < 1 →
        updateMu GncLossType.GM muStep mu = 1)
    ∧ (∀ muStep : ℚ, 1 ≤ muStep → updateMu GncLossType.GM muStep 1 = 1)
    ∧ (∀ muStep mu : ℚ, updateMu GncLossType.TLS muStep mu = mu * muStep)
    ∧ updateMu GncLossType.GM (7 / 5) 5 = 5 / (7 / 5)
    ∧ updateMu GncLossType.GM (7 / 5) (6 / 5) = 1
    ∧ updateMu GncLossType.TLS (7 / 5) 5 = 5 * (7 / 5) := by
  refine ⟨?_, ?_, ?_, fun muStep mu => rfl, ?_, ?_, rfl⟩
  · intro muStep mu h
    simp [updateMu, max_eq_right h]
  · intro muStep mu h
    simp [updateMu, max_eq_left h.le]
  · intro muStep h
    have hpos : (0 : ℚ) < muStep := lt_of_lt_of_le one_pos h
    have hle : 1 / muStep ≤ 1 := by
      rw [div_le_one hpos]
      exact h
    show max 1 (1 / muStep) = 1
    exact max_eq_left hle
  · simp [updateMu]
    norm_num
  · simp [updateMu]
    norm_num

/-- Concrete instantiation of `updateMu_spec` at the test's inputs. -/
theorem updateMu_spec_witness :
    ((1 : ℚ) ≤ 5 / (7 / 5) ∧ updateMu GncLossType.GM (7 / 5) 5 = 5 / (7 / 5))
    ∧ ((6 : ℚ) / 5 / (7 / 5) < 1 ∧ updateMu GncLossType.GM (7 / 5) (6 / 5) = 1) :=
  ⟨⟨by norm_num, updateMu_spec.1 (7 / 5) 5 (by norm_num)⟩,
   ⟨by norm_num, updateMu_spec.2.1 (7 / 5) (6 / 5) (by norm_num)⟩⟩

/-- Claim C4: `checkMuConvergence` holds for GM exactly when `mu = 1`,
independently of the previous value, and for TLS exactly when
`|mu − previousMu| ≤ relativeCostTol`. -/
theorem checkMuConvergence_spec :
    (∀ relTol mu previousMu : ℚ,
        checkMuConvergence GncLossType.GM relTol mu previousMu = true ↔ mu = 1)
    ∧ (∀ relTol mu previousMu : ℚ,
        checkMuConvergence GncLossType.TLS relTol mu previousMu = true
          ↔ |mu - previousMu| ≤ relTol) := by
  constructor
  · intro relTol mu previousMu
    simp [checkMuConvergence]
  · intro relTol mu previousMu
    simp [checkMuConvergence]

/-- Concrete instantiation of `checkMuConvergence_spec` at the test's
inputs: GM converges at `mu = 1` whatever the previous value, TLS converges
when `mu` equals the previous value. -/
theorem checkMuConvergence_spec_witness :
    checkMuConvergence GncLossType.GM (1 / 100000) 1 0 = true
    ∧ checkMuConvergence GncLossType.TLS (1 / 100000) 1 1 = true :=
  ⟨(checkMuConvergence_spec.1 (1 / 100000) 1 0).mpr rfl,
   (checkMuConvergence_spec.2 (1 / 100000) 1 1).mpr (by norm_num)⟩

/-- Claim C9: under either loss family, a factor with zero residual error
receives weight exactly 1 at any positive `mu` and `barcSq`. -/
theorem zero_error_weight_spec (t : GncLossType) (barcSq mu : ℚ)
    (hb : 0 < barcSq) (hm : 0 < mu) : lossWeight t barcSq mu 0 = 1 := by
  have hpos : 0 < mu * barcSq := mul_pos hm hb
  cases t with
  | GM =>
    simp [lossWeight, weightGM, div_self hpos.ne.symm]
  | TLS =>
    simp [lossWeight, weightTLS, hpos.le]

/-- Concrete instantiation of `zero_error_weight_spec` for both loss
families. -/
theorem zero_error_weight_spec_witness :
    ((0 : ℚ) < 1 ∧ lossWeight GncLossType.GM 1 1 0 = 1)
    ∧ lossWeight GncLossType.TLS 1 1 0 = 1 :=
  ⟨⟨one_pos, zero_error_weight_spec GncLossType.GM 1 1 one_pos one_pos⟩,
   zero_error_weight_spec GncLossType.TLS 1 1 one_pos one_pos⟩

/-- Claim C5: `makeWeightedGraph` maps a plain graph and a matching weight
vector to a graph of the same size and slot order whose factors keep their
keys and residual but have their information multiplied by the slot's
weight (noise scale divided by `sqrt(weight)`); a factor with noise scale
0.1 (information 100) reweighted by `1e-4` gets information `1/10²` (noise
scale exactly 10), and a zero-weight factor stays in the graph. -/
theorem makeWeightedGraph_spec :
    (∀ (g : NonlinearFactorGraph) (ws : List ℚ), allPlain g → g.length = ws.length →
        makeWeightedGraph g ws = some (List.zipWith reweightPlainExpected g ws)
        ∧ (List.zipWith reweightPlainExpected g ws).length = g.length)
    ∧ (∀ (f : NonlinearFactor) (w : ℚ),
        (reweightPlainExpected f w).keys = f.keys
        ∧ (reweightPlainExpected f w).residualId = f.residualId
        ∧ (reweightPlainExpected f w).noise = NoiseModel.gaussian (w * infoOf f.noise))
    ∧ makeWeightedGraph [⟨[1], 0, NoiseModel.gaussian 100⟩] [1 / 10000]
        = some [⟨[1], 0, NoiseModel.gaussian (1 / 10 ^ 2)⟩]
    ∧ makeWeightedGraph [⟨[1], 0, NoiseModel.gaussian 100⟩] [0]
        = some [⟨[1], 0, NoiseModel.gaussian 0⟩] := by
  refine ⟨?_, ?_, ?_, ?_⟩
  · intro g ws hp hl
    refine ⟨makeWeightedGraph_plain g ws hp hl, ?_⟩
    simp [List.length_zipWith, hl]
  · intro f w
    exact ⟨rfl, rfl, rfl⟩
  · norm_num [makeWeightedGraph, reweightNoise]
  · norm_num [makeWeightedGraph, reweightNoise]

/-- Concrete instantiation of `makeWeightedGraph_spec` on a one-factor
plain graph. -/
theorem makeWeightedGraph_spec_witness :
    (allPlain [⟨[1], 0, NoiseModel.gaussian 100⟩]
      ∧ ([⟨[1], 0, NoiseModel.gaussian 100⟩] : NonlinearFactorGraph).length
          = ([1 / 10000] : List ℚ).length)
    ∧ makeWeightedGraph [⟨[1], 0, NoiseModel.gaussian 100⟩] [1 / 10000]
        = some (List.zipWith reweightPlainExpected
            [⟨[1], 0, NoiseModel.gaussian 100⟩] [1 / 10000]) :=
  ⟨⟨fun f hf => ⟨100, by simp at hf; simp [hf]⟩, rfl⟩,
   (makeWeightedGraph_spec.1 [⟨[1], 0, NoiseModel.gaussian 100⟩] [1 / 10000]
      (fun f hf => ⟨100, by simp at hf; simp [hf]⟩) rfl).1⟩

/-- Claim C6: the optimizer's constructor stores the robust-unwrapped input
graph: every robust-wrapped factor is replaced by its inner plain-noise
factor, a graph with no robust-wrapped factors passes through unchanged,
and unwrapping twice is a no-op. -/
theorem gnc_constructor_unwrap_spec :
    (∀ (B V : Type) (g : NonlinearFactorGraph) (v : V) (p : GncParams B),
        (mkGncOptimizer g v p).factors = unwrapRobust g)
    ∧ (∀ g : NonlinearFactorGraph, allPlain g → unwrapRobust g = g)
    ∧ (∀ (B V : Type) (g : NonlinearFactorGraph) (v : V) (p : GncParams B),
        allPlain g → (mkGncOptimizer (wrapRobust g) v p).factors = g)
    ∧ (∀ g : NonlinearFactorGraph, unwrapRobust (unwrapRobust g) = unwrapRobust g) := by
  refine ⟨fun B V g v p => rfl, unwrapRobust_of_plain, ?_, ?_⟩
  · intro B V g v p hp
    show unwrapRobust (wrapRobust g) = g
    induction g with
    | nil => rfl
    | cons f fs ih =>
      obtain ⟨info, hinfo⟩ := hp f (List.mem_cons_self f fs)
      have hp' : allPlain fs := fun x hx => hp x (List.mem_cons_of_mem _ hx)
      simp [unwrapRobust, wrapRobust] at ih ⊢
      exact ⟨unwrapFactor_wrapFactor_of_plain f info hinfo, ih hp'⟩
  · intro g
    simp [unwrapRobust, Function.comp_def, unwrapFactor_idem]

/-- Concrete instantiation of `gnc_constructor_unwrap_spec`: a robust-wrapped
one-factor graph is stored unwrapped, matching its plain counterpart. -/
theorem gnc_constructor_unwrap_spec_witness :
    allPlain [⟨[1], 0, NoiseModel.gaussian 100⟩]
    ∧ (mkGncOptimizer (wrapRobust [⟨[1], 0, NoiseModel.gaussian 100⟩]) ()
        (GncParams.mkDefault ())).factors = [⟨[1], 0, NoiseModel.gaussian 100⟩] :=
  ⟨fun f hf => ⟨100, by simp at hf; simp [hf]⟩,
   gnc_constructor_unwrap_spec.2.2.1 Unit Unit [⟨[1], 0, NoiseModel.gaussian 100⟩] ()
     (GncParams.mkDefault ()) (fun f hf => ⟨100, by simp at hf; simp [hf]⟩)⟩

/-- Claim C7: the weight of every known-inlier slot is 1 at every point of
the run — the pinned-weights invariant is preserved by every iteration of
the main loop and holds for the weight vector `optimize()` returns,
whatever the residual errors and the base optimizer do. -/
theorem known_inlier_pinned_spec :
    (∀ (B V : Type) (p : GncParams B) (errs : V → List ℚ) (baseOpt : List ℚ → V → V)
        (fuel : Nat) (s : GncRunState V),
        pinnedWeights p.knownInliers s.weights = true →
        pinnedWeights p.knownInliers (gncIterate p errs baseOpt fuel s).weights = true)
    ∧ (∀ (B V : Type) (p : GncParams B) (errs : V → List ℚ) (baseOpt : List ℚ → V → V)
        (initial : V),
        pinnedWeights p.knownInliers (gncOptimize p errs baseOpt initial).weights = true) := by
  have hiter : ∀ (B V : Type) (p : GncParams B) (errs : V → List ℚ)
      (baseOpt : List ℚ → V → V) (fuel : Nat) (s : GncRunState V),
      pinnedWeights p.knownInliers s.weights = true →
      pinnedWeights p.knownInliers (gncIterate p errs baseOpt fuel s).weights = true := by
    intro B V p errs baseOpt fuel
    induction fuel with
    | zero => intro s hs; exact hs
    | succ n ih =>
      intro s hs
      rw [gncIterate]
      split
      · exact pinnedWeights_calculateWeights p _ _
      · dsimp only
        split
        · exact pinnedWeights_calculateWeights p _ _
        · exact ih _ (pinnedWeights_calculateWeights p _ _)
  refine ⟨hiter, ?_⟩
  intro B V p errs baseOpt initial
  exact hiter B V p errs baseOpt p.maxIterations _ (pinnedWeights_replicate _ _)

/-- Concrete instantiation of `known_inlier_pinned_spec`: with slot 0 a
known inlier, two loop iterations on errors `[5, 7]` keep weight 1 at
slot 0. -/
theorem known_inlier_pinned_spec_witness :
    pinnedWeights ((GncParams.mkDefault ()).setKnownInliers [0]).knownInliers
      ([1, 1] : List ℚ) = true
    ∧ pinnedWeights ((GncParams.mkDefault ()).setKnownInliers [0]).knownInliers
        (gncIterate ((GncParams.mkDefault ()).setKnownInliers [0])
          (fun _ => ([5, 7] : List ℚ)) (fun _ v => v) 2
          ⟨(), 1, [1, 1]⟩).weights = true :=
  ⟨by decide,
   known_inlier_pinned_spec.1 Unit Unit ((GncParams.mkDefault ()).setKnownInliers [0])
     (fun _ => ([5, 7] : List ℚ)) (fun _ v => v) 2 ⟨(), 1, [1, 1]⟩ (by decide)⟩

/-- Claim C8: an invalid configuration (non-positive `barcSq` or
`muStep ≤ 1`) is not rejected by the `GncParams` setters at construction —
they store any value — but fails fast at the first schedule computation,
while a valid configuration proceeds. -/
theorem invalid_config_failfast_spec :
    (∀ (B : Type) (p : GncParams B) (errors : List ℚ),
        p.barcSq ≤ 0 ∨ p.muStep ≤ 1 → initializeMuChecked p errors = none)
    ∧ (∀ (B : Type) (p : GncParams B) (errors : List ℚ),
        0 < p.barcSq → 1 < p.muStep →
        initializeMuChecked p errors = some (initializeMu p errors))
    ∧ (∀ (B : Type) (p : GncParams B) (v : ℚ),
        (p.setInlierCostThreshold v).barcSq = v ∧ (p.setMuStep v).muStep = v) := by
  refine ⟨?_, ?_, fun B p v => ⟨rfl, rfl⟩⟩
  · intro B p errors h
    rw [initializeMuChecked, if_pos h]
  · intro B p errors hb hm
    rw [initializeMuChecked, if_neg]
    push_neg
    exact ⟨hb, hm⟩

/-- Concrete instantiation of `invalid_config_failfast_spec`: setting the
inlier threshold to a non-positive value is accepted by the setter and the
first schedule computation then fails. -/
theorem invalid_config_failfast_spec_witness :
    (((GncParams.mkDefault ()).setInlierCostThreshold (-1)).barcSq ≤ 0
      ∨ ((GncParams.mkDefault ()).setInlierCostThreshold (-1)).muStep ≤ 1)
    ∧ initializeMuChecked ((GncParams.mkDefault ()).setInlierCostThreshold (-1)) [1]
        = none :=
  ⟨Or.inl (by norm_num [GncParams.mkDefault, GncParams.setInlierCostThreshold]),
   invalid_config_failfast_spec.1 Unit ((GncParams.mkDefault ()).setInlierCostThreshold (-1))
     [1] (Or.inl (by norm_num [GncParams.mkDefault, GncParams.setInlierCostThreshold]))⟩

/-- Claim C10: `GncParams::equals` does not compare `relativeCostTol` or
`weightsTol`: its value is unchanged under any reassignment of those two
fields, and two configurations agreeing on the compared fields are `equals`
even when their tolerances differ. -/
theorem equals_ignores_tols_spec :
    (∀ (B : Type) (baseEq : B → B → Bool) (p other : GncParams B) (tol a b a2 b2 : ℚ),
        GncParams.equals baseEq { p with relativeCostTol := a, weightsTol := b } other tol
          = GncParams.equals baseEq { p with relativeCostTol := a2, weightsTol := b2 } other tol)
    ∧ (∀ (B : Type) (baseEq : B → B → Bool) (p other : GncParams B) (tol : ℚ),
        baseEq p.baseOptimizerParams other.baseOptimizerParams = true →
        p.lossType = other.lossType →
        p.maxIterations = other.maxIterations →
        |p.barcSq - other.barcSq| ≤ tol →
        |p.muStep - other.muStep| ≤ tol →
        p.verbosity = other.verbosity →
        p.knownInliers = other.knownInliers →
        GncParams.equals baseEq p other tol = true) := by
  constructor
  · intro B baseEq p other tol a b a2 b2
    rfl
  · intro B baseEq p other tol h1 h2 h3 h4 h5 h6 h7
    simp [GncParams.equals, h1, h2, h3, h4, h5, h6, h7]

/-- Concrete instantiation of `equals_ignores_tols_spec`: two default
configurations that differ only in `relativeCostTol` and `weightsTol` are
`equals`. -/
theorem equals_ignores_tols_spec_witness :
    GncParams.equals (fun _ _ => true)
      { GncParams.mkDefault () with relativeCostTol := 1, weightsTol := 2 }
      (GncParams.mkDefault ()) 0 = true :=
  equals_ignores_tols_spec.2 Unit (fun _ _ => true)
    { GncParams.mkDefault () with relativeCostTol := 1, weightsTol := 2 }
    (GncParams.mkDefault ()) 0 rfl rfl rfl
    (by norm_num [GncParams.mkDefault]) (by norm_num [GncParams.mkDefault]) rfl rfl

end Gnc
